import Mathlib

/-!
Shallow embedding of `workers/facts-worker/rlm_facts.py` (the facts-extraction
worker of swarm-of-governed-agents): JSON values, Python-style `json.dumps`
serialization, the context truncator, the stable content hash, drift
computation, the list canonicalizer, the NLI contradiction adapter, and the
extraction orchestrator.  Python machine floats are modelled by `ℚ`; the
SHA-256 digest of `stable_hash` is modelled as an abstract `String → String`
parameter (its input string is computed exactly); fallible Python code
(attribute errors on non-dict values) is modelled with `Option`.
-/

/-- A decoded JSON value (the `Any` values flowing through the worker).
Numbers are modelled by `ℚ` (Python floats/ints). -/
inductive Json where
  | null : Json
  | bool : Bool → Json
  | num : ℚ → Json
  | str : String → Json
  | arr : List Json → Json
  | obj : List (String × Json) → Json

/-- Python truthiness (`bool(x)`) of a JSON value: `None`, `False`, `0`,
`""`, `[]`, `{}` are falsy, everything else truthy. -/
def pyTruthy : Json → Bool
  | .null => false
  | .bool b => b
  | .num q => q ≠ 0
  | .str s => s ≠ ""
  | .arr l => !l.isEmpty
  | .obj f => !f.isEmpty

/-- Python `a or b`: `a` when truthy, else `b`. -/
def pyOr (a b : Json) : Json := if pyTruthy a then a else b

/-- Python `d.get(k)` on a dict: the value when the key is present, `None`
(here `Json.null`) when absent. -/
def pyGet (fs : List (String × Json)) (k : String) : Json :=
  match fs.find? (fun p => p.1 == k) with
  | some p => p.2
  | none => Json.null

/-- Python `d.get(k)` distinguishing absence (`none`) from a stored value. -/
def pyGetOpt (fs : List (String × Json)) (k : String) : Option Json :=
  (fs.find? (fun p => p.1 == k)).map (·.2)

/-- Python `str.strip()`: drop leading and trailing whitespace (modelled
over the character list so that it evaluates inside the kernel). -/
def pyStrip (s : String) : String :=
  ⟨((s.toList.dropWhile Char.isWhitespace).reverse.dropWhile Char.isWhitespace).reverse⟩

/-- JSON string escaping as performed by `json.dumps(..., ensure_ascii=False)`:
`"` and `\` are backslash-escaped, control characters use the short escapes
or `\u00XX`, everything else is emitted verbatim. -/
def escapeJsonChar (c : Char) : String :=
  if c = '"' then "\\\""
  else if c = '\\' then "\\\\"
  else if c = '\n' then "\\n"
  else if c = '\t' then "\\t"
  else if c = '\r' then "\\r"
  else if c = '\x08' then "\\b"
  else if c = '\x0c' then "\\f"
  else if c.val < 32 then
    let hex := fun (n : Nat) => String.singleton (Nat.digitChar n)
    "\\u00" ++ hex (c.val.toNat / 16) ++ hex (c.val.toNat % 16)
  else String.singleton c

/-- A JSON string literal: quotes around the escaped characters. -/
def quoteJson (s : String) : String :=
  "\"" ++ String.join (s.toList.map escapeJsonChar) ++ "\""

/-- Rendering of a JSON number.  Integral values print like Python ints;
non-integral values use a numerator/denominator stand-in (the worker's
claims never depend on Python's float repr, only on which keys/values are
serialized). -/
def numRepr (q : ℚ) : String :=
  if q.den = 1 then toString q.num else toString q.num ++ "/" ++ toString q.den

mutual
/-- `json.dumps` of a value. `compact` selects the separators
`(",", ":")` (as used by the context truncator); otherwise the Python
defaults `(", ", ": ")` (as used by `stable_hash`) apply.  Key sorting is
applied separately (see `sortJson`). -/
def dumps (compact : Bool) : Json → String
  | .null => "null"
  | .bool b => if b then "true" else "false"
  | .num q => numRepr q
  | .str s => quoteJson s
  | .arr xs => "[" ++ dumpsArr compact xs ++ "]"
  | .obj fs => "\x7b" ++ dumpsObj compact fs ++ "\x7d"

/-- Comma-separated serialization of array elements. -/
def dumpsArr (compact : Bool) : List Json → String
  | [] => ""
  | [x] => dumps compact x
  | x :: y :: xs =>
      dumps compact x ++ (if compact then "," else ", ") ++ dumpsArr compact (y :: xs)

/-- Comma-separated serialization of object fields. -/
def dumpsObj (compact : Bool) : List (String × Json) → String
  | [] => ""
  | [kv] => quoteJson kv.1 ++ (if compact then ":" else ": ") ++ dumps compact kv.2
  | kv :: kv2 :: fs =>
      quoteJson kv.1 ++ (if compact then ":" else ": ") ++ dumps compact kv.2
        ++ (if compact then "," else ", ") ++ dumpsObj compact (kv2 :: fs)
end

/-- Key order on object fields (`sort_keys=True` compares `str` keys by
code points, i.e. lexicographically on the character sequence). -/
def keyLe (a b : String × Json) : Prop := a.1.data ≤ b.1.data

/-- Strict key order on object fields. -/
def keyLt (a b : String × Json) : Prop := a.1.data < b.1.data

instance : DecidableRel keyLe := fun a b => inferInstanceAs (Decidable (a.1.data ≤ b.1.data))

instance : IsTotal (String × Json) keyLe := ⟨fun a b => le_total a.1.data b.1.data⟩

instance : IsTrans (String × Json) keyLe := ⟨fun _ _ _ h h' => le_trans h h'⟩

instance : IsAntisymm (String × Json) keyLt :=
  ⟨fun _ _ h h' => absurd (lt_trans h h') (lt_irrefl _)⟩

/-- Ordering of object fields by key, as produced by `sort_keys=True`. -/
def sortPairs (fs : List (String × Json)) : List (String × Json) :=
  fs.insertionSort keyLe

mutual
/-- Recursively sort every object's fields by key (the effect of
`json.dumps(..., sort_keys=True)` on the tree, applied before serializing). -/
def sortJson : Json → Json
  | .null => .null
  | .bool b => .bool b
  | .num q => .num q
  | .str s => .str s
  | .arr xs => .arr (sortJsonList xs)
  | .obj fs => .obj (sortPairs (sortJsonFields fs))

/-- `sortJson` mapped over array elements. -/
def sortJsonList : List Json → List Json
  | [] => []
  | x :: xs => sortJson x :: sortJsonList xs

/-- `sortJson` mapped over field values. -/
def sortJsonFields : List (String × Json) → List (String × Json)
  | [] => []
  | kv :: fs => (kv.1, sortJson kv.2) :: sortJsonFields fs
end

/-- The body of the truncation loop of `_truncate_context_for_prompt`:
events are consumed newest-first (the reversed context), each is prepended
to `out`; on the first overflow the just-inserted event is popped again and
the loop breaks. -/
def truncGo (max_chars : Int) : List Json → List Json → List Json
  | [], out => out
  | e :: rest, out =>
      let out2 := e :: out
      if ((dumps true (Json.arr out2)).length : Int) > max_chars then out
      else truncGo max_chars rest out2

/-- `_truncate_context_for_prompt(context, max_chars)`: keep a suffix of the
events whose compact JSON serialization fits in `max_chars`; a budget ≤ 0 is
a no-op; when the loop kept nothing the source returns `context[:1]`. -/
def _truncate_context_for_prompt (context : List Json) (max_chars : Int) : List Json :=
  if max_chars ≤ 0 then context
  else if ((dumps true (Json.arr context)).length : Int) ≤ max_chars then context
  else
    let out := truncGo max_chars context.reverse []
    if out.isEmpty then context.take 1 else out

/-- The `Facts` pydantic model (field defaults as in the source). -/
structure Facts where
  version : Int := 2
  updated_at : String := ""
  entities : List String := []
  claims : List String := []
  risks : List String := []
  assumptions : List String := []
  contradictions : List String := []
  goals : List String := []
  confidence : ℚ := 1
  hash : Option String := none

/-- `Facts.model_dump()`: the record as a dict, in field declaration order
(pydantic preserves declaration order; `stable_hash` sorts keys anyway). -/
def factsDump (f : Facts) : List (String × Json) :=
  [("version", .num (f.version : ℚ)),
   ("updated_at", .str f.updated_at),
   ("entities", .arr (f.entities.map .str)),
   ("claims", .arr (f.claims.map .str)),
   ("risks", .arr (f.risks.map .str)),
   ("assumptions", .arr (f.assumptions.map .str)),
   ("contradictions", .arr (f.contradictions.map .str)),
   ("goals", .arr (f.goals.map .str)),
   ("confidence", .num f.confidence),
   ("hash", match f.hash with | some h => .str h | none => .null)]

/-- `stable_hash(obj)`: SHA-256 hex digest of
`json.dumps(obj, sort_keys=True, ensure_ascii=False).encode("utf-8")`.
The digest itself is an abstract parameter; the serialized input string is
computed exactly (default separators, sorted keys). -/
def stable_hash (digest : String → String) (obj : Json) : String :=
  digest (dumps false (sortJson obj))

/-- The hash input actually used by the assembler at
`facts.hash = stable_hash(facts.model_dump())`: the dump still contains the
`hash` key (holding its pre-digest value, `None` in the normal flow). -/
def assemblerHashInput (f : Facts) : String :=
  dumps false (sortJson (Json.obj (factsDump f)))

/-- Modelled from the spec: "a canonical serialization of the record with
all fields except `hash` itself, using sorted-key ordering" — the dump with
the `hash` key removed, then sorted-key serialized. -/
def specHashInput (f : Facts) : String :=
  dumps false (sortJson (Json.obj ((factsDump f).filter (fun kv => !(kv.1 == "hash")))))

/-- The `Drift` pydantic model.  A `references` entry is a dict
(`{"type": ..., "doc": ...}` or `{"type": ..., "excerpt": ...}`). -/
structure Drift where
  level : String
  types : List String
  notes : List String
  facts_hash : String
  references : List (List (String × Json)) := []

/-- `payload = ev.get("payload") or ev.get("data", {}).get("payload") or
ev.get("data") or {}` from `_doc_titles_from_context`.  `none` models the
`AttributeError` the source raises when `ev["data"]` is present but not a
dict (including `None`) while `ev.get("payload")` is falsy. -/
def eventPayload (evfs : List (String × Json)) : Option Json :=
  let a := pyGet evfs "payload"
  if pyTruthy a then some a
  else
    match pyGetOpt evfs "data" with
    | none => some (Json.obj [])
    | some b =>
      match b with
      | .obj bfs =>
          let c := pyGet bfs "payload"
          if pyTruthy c then some c
          else if pyTruthy b then some b
          else some (Json.obj [])
      | _ => none

/-- `if v and isinstance(v, str) and v not in seen: seen.add(v); out.append(v)`
(the `seen` set always equals the set of elements of `out`). -/
def addTitleIfNew (j : Json) (acc : List String) : List String :=
  match j with
  | .str s => if s ≠ "" && !acc.contains s then acc ++ [s] else acc
  | _ => acc

/-- Loop of `_doc_titles_from_context`: per event, a title from the payload
sub-object (`title`/`filename`/`source`, first truthy wins), then the
top-level `title` and `filename` keys; non-dict events are skipped. -/
def docTitlesGo : List Json → List String → Option (List String)
  | [], acc => some acc
  | ev :: rest, acc =>
    match ev with
    | .obj evfs => do
        let payload ← eventPayload evfs
        let acc1 := match payload with
          | .obj pfs =>
              addTitleIfNew (pyOr (pyOr (pyGet pfs "title") (pyGet pfs "filename")) (pyGet pfs "source")) acc
          | _ => acc
        let acc2 := addTitleIfNew (pyGet evfs "title") acc1
        let acc3 := addTitleIfNew (pyGet evfs "filename") acc2
        docTitlesGo rest acc3
    | _ => docTitlesGo rest acc

/-- `_doc_titles_from_context(context)`: deduplicated document titles in
first-seen order. -/
def _doc_titles_from_context (context : List Json) : Option (List String) :=
  docTitlesGo context []

/-- A `{"type": "context_doc", "doc": doc}` reference entry. -/
def mkCtxDocRef (t : String) : List (String × Json) :=
  [("type", .str "context_doc"), ("doc", .str t)]

/-- The `if context:`-guarded accumulation of `context_doc` references
shared by both branches of `compute_drift` (Python truthiness: `None` and
`[]` both skip). -/
def ctxRefs (context : Option (List Json)) : Option (List (List (String × Json))) :=
  match context with
  | some ctx =>
      if ctx.isEmpty then some []
      else (_doc_titles_from_context ctx).map (·.map mkCtxDocRef)
  | none => some []

/-- Python `==` between a decoded JSON value and a `str`: only equal strings
compare equal. -/
def jeqStr (j : Json) (s : String) : Bool :=
  match j with
  | .str t => t == s
  | _ => false

/-- `set(l) == set(elems)` where `l` is a list of `str` and `elems` the
elements iterated from the old snapshot's value. -/
def strSetEq (l : List String) (elems : List Json) : Bool :=
  l.all (fun s => elems.any (fun j => jeqStr j s))
    && elems.all (fun j => l.any (fun s => jeqStr j s))

/-- Whether a value may be a member of a Python `set` (lists/dicts are
unhashable). -/
def hashableJson : Json → Bool
  | .arr _ => false
  | .obj _ => false
  | _ => true

/-- The elements `set(v)` iterates: a list yields its elements (all must be
hashable), a string its characters, a dict its keys; `none` models the
`TypeError` on non-iterable or unhashable input. -/
def pySetElems : Json → Option (List Json)
  | .arr l => if l.all hashableJson then some l else none
  | .str s => some (s.toList.map (fun c => .str (String.singleton c)))
  | .obj fs => some (fs.map (fun kv => .str kv.1))
  | _ => none

/-- `new.confidence < (old.get("confidence") or 1.0)`; `none` models the
`TypeError` on a truthy non-numeric stored value. -/
def confLess (c : ℚ) (d : List (String × Json)) : Option Bool :=
  match pyOr (pyGet d "confidence") (.num 1) with
  | .num q => some (decide (c < q))
  | .bool b => some (decide (c < (if b then (1 : ℚ) else 0)))
  | _ => none

/-- The bootstrap (`if not old:`) branch of `compute_drift`. -/
def driftBootstrap (new : Facts) (context : Option (List Json)) : Option Drift :=
  (ctxRefs context).map fun refs =>
    { level := "none"
      types := []
      notes := ["initial snapshot"]
      facts_hash := new.hash.getD ""
      references := refs }

/-- `drift_types` as accumulated by the comparative branch of
`compute_drift`, in source order: factual, goal, contradiction, entropy. -/
def driftTypesList (factualP goalP contradictionP entropyP : Bool) : List String :=
  (if factualP then ["factual"] else []) ++ (if goalP then ["goal"] else [])
    ++ (if contradictionP then ["contradiction"] else [])
    ++ (if entropyP then ["entropy"] else [])

/-- The `none`/`low`/`high` level derivation of `compute_drift`:
`level = "none"`, overwritten by `"low"` when any type fired, overwritten by
`"high"` when `"contradiction"` is among the fired types. -/
def driftLevel (drift_types : List String) : String :=
  if "contradiction" ∈ drift_types then "high"
  else if !drift_types.isEmpty then "low"
  else "none"

/-- The `{"type": "contradiction", "excerpt": ...}` references appended for
every non-blank entry of the new record's `contradictions`. -/
def contradictionRefs (contradictions : List String) : List (List (String × Json)) :=
  contradictions.filterMap fun c =>
    if pyStrip c ≠ "" then
      some [("type", Json.str "contradiction"), ("excerpt", Json.str (pyStrip c))]
    else none

/-- The comparative-branch `Drift` record, given the context references and
the four predicate outcomes. -/
def mkCompareDrift (new : Facts) (references0 : List (List (String × Json)))
    (factualP goalP entropyP : Bool) : Drift :=
  let contradictionP := !new.contradictions.isEmpty
  let drift_types := driftTypesList factualP goalP contradictionP entropyP
  { level := driftLevel drift_types
    types := drift_types
    notes := ["automatic structured drift detection"]
    facts_hash := new.hash.getD ""
    references := references0
      ++ (if contradictionP then contradictionRefs new.contradictions else []) }

/-- The comparative branch of `compute_drift` (old snapshot present and
non-empty): the four predicates, reference accumulation, and the
none/low/high level derivation, in source order.  The four-way match is the
`Option` chain of the partial reads of the old snapshot and the context
(`none` = the source raises). -/
def driftCompare (new : Facts) (d : List (String × Json)) (context : Option (List Json)) : Option Drift :=
  match ctxRefs context,
      pySetElems (pyOr (pyGet d "claims") (.arr [])),
      pySetElems (pyOr (pyGet d "goals") (.arr [])),
      confLess new.confidence d with
  | some references0, some oldClaimsElems, some oldGoalsElems, some entropyP =>
      some (mkCompareDrift new references0
        (!strSetEq new.claims oldClaimsElems) (!strSetEq new.goals oldGoalsElems) entropyP)
  | _, _, _, _ => none

/-- `compute_drift(new, old, context)`.  `old` is the previous snapshot as an
untyped dict (`none` = Python `None`); `if not old:` sends both `None` and
`{}` to the bootstrap branch.  `none` as a result models the exceptions the
source would raise on ill-typed snapshot/context values. -/
def compute_drift (new : Facts) (old : Option (List (String × Json)))
    (context : Option (List Json)) : Option Drift :=
  match old with
  | none => driftBootstrap new context
  | some d => if d.isEmpty then driftBootstrap new context else driftCompare new d context

/-- Python `repr` of a string (quote style chosen as CPython does for
strings without special characters; escapes inside are not exercised by the
worker's data). -/
def pyReprStr (s : String) : String :=
  if s.contains '\'' && !s.contains '"' then "\"" ++ s ++ "\"" else "'" ++ s ++ "'"

mutual
/-- Python `repr` of a decoded JSON value (used by `str()` on containers). -/
def pyRepr : Json → String
  | .null => "None"
  | .bool b => if b then "True" else "False"
  | .num q => numRepr q
  | .str s => pyReprStr s
  | .arr xs => "[" ++ pyReprList xs ++ "]"
  | .obj fs => "\x7b" ++ pyReprFields fs ++ "\x7d"

/-- Comma-separated reprs of list elements. -/
def pyReprList : List Json → String
  | [] => ""
  | [x] => pyRepr x
  | x :: y :: xs => pyRepr x ++ ", " ++ pyReprList (y :: xs)

/-- Comma-separated `key: value` reprs of dict entries. -/
def pyReprFields : List (String × Json) → String
  | [] => ""
  | [kv] => pyReprStr kv.1 ++ ": " ++ pyRepr kv.2
  | kv :: kv2 :: fs => pyReprStr kv.1 ++ ": " ++ pyRepr kv.2 ++ ", " ++ pyReprFields (kv2 :: fs)
end

/-- Python `str(x)` of a decoded JSON value. -/
def pyStr : Json → String
  | .null => "None"
  | .bool b => if b then "True" else "False"
  | .num q => numRepr q
  | .str s => s
  | .arr xs => pyRepr (.arr xs)
  | .obj fs => pyRepr (.obj fs)

/-- `v and isinstance(v[0], (dict, list))` on a decoded list value. -/
def headIsContainer : List Json → Bool
  | .arr _ :: _ => true
  | .obj _ :: _ => true
  | _ => false

/-- `next((v for v in item.values() if isinstance(v, str)), None)`. -/
def firstStrValue (fs : List (String × Json)) : Json :=
  match fs.find? (fun kv => match kv.2 with | .str _ => true | _ => false) with
  | some kv => kv.2
  | none => .null

/-- The sequence branch of `_to_string_list`: strings pass through trimmed
(an empty-after-trim string reverts to the original), dict items look up the
preferred keys in fixed priority with a first-string-value and whole-item
stringification fallback, everything else is stringified.  Python's
`str.strip()` is modelled by `pyStrip`. -/
def toStrListGo : List Json → List String
  | [] => []
  | item :: rest =>
    (match item with
     | .str s => [if pyStrip s ≠ "" then pyStrip s else s]
     | .obj fs =>
        let s := pyOr (pyOr (pyOr (pyOr (pyOr (pyOr (pyOr
          (pyGet fs "claim") (pyGet fs "risk")) (pyGet fs "assumption"))
          (pyGet fs "contradiction")) (pyGet fs "goal")) (pyGet fs "text"))
          (pyGet fs "entity")) (firstStrValue fs)
        match s with
        | .str t => if t ≠ "" then [if pyStrip t ≠ "" then pyStrip t else t] else [pyStr (Json.obj fs)]
        | _ => [pyStr (Json.obj fs)]
     | v => [pyStr v])
    ++ toStrListGo rest

/-- The mapping branch of `_to_string_list`: flatten all values in mapping
iteration order; a list value whose head is a container recurses (via the
sequence branch, which is what `_to_string_list` dispatches to on a list),
a list of scalars is stringified elementwise (NOT trimmed), a bare scalar
value is stringified. -/
def toStrDictGo : List (String × Json) → List String
  | [] => []
  | (_, v) :: rest =>
    (match v with
     | .arr l => if !l.isEmpty && headIsContainer l then toStrListGo l else l.map pyStr
     | w => [pyStr w])
    ++ toStrDictGo rest

/-- `_to_string_list(val)`: coerce an arbitrary decoded JSON value into a
list of strings (`None` → `[]`, mapping → flattened values, list → per-item
coercion, scalar → singleton stringification). -/
def _to_string_list : Json → List String
  | .null => []
  | .obj fs => toStrDictGo fs
  | .arr items => toStrListGo items
  | v => [pyStr v]

/-- Inner `for j in range(i + 1, min(len(claims), 20))` loop of
`_detect_contradictions_nli`: breaks when the pair cap is reached, appends a
pair when both sides are non-blank after trimming. -/
def nliInner (claims : List String) (m max_pairs i : Nat) (j : Nat)
    (acc : List (String × String)) : List (String × String) :=
  if _h : j ≥ m then acc
  else if acc.length ≥ max_pairs then acc
  else
    nliInner claims m max_pairs i (j + 1)
      (if pyStrip (claims.getD i "") ≠ "" && pyStrip (claims.getD j "") ≠ "" then
        acc ++ [(claims.getD i "", claims.getD j "")]
      else acc)
termination_by m - j
decreasing_by omega

/-- Outer `for i in range(min(len(claims), 20))` loop: runs the inner loop,
then breaks when the pair cap is reached. -/
def nliOuter (claims : List String) (m max_pairs : Nat) (i : Nat)
    (acc : List (String × String)) : List (String × String) :=
  if _h : i ≥ m then acc
  else
    if (nliInner claims m max_pairs i (i + 1) acc).length ≥ max_pairs then
      nliInner claims m max_pairs i (i + 1) acc
    else nliOuter claims m max_pairs (i + 1) (nliInner claims m max_pairs i (i + 1) acc)
termination_by m - i
decreasing_by omega

/-- The pair list built by `_detect_contradictions_nli` before scoring. -/
def nliPairs (claims : List String) (max_pairs : Nat) : List (String × String) :=
  nliOuter claims (min claims.length 20) max_pairs 0 []

/-- `f"NLI: \"{a[:100]}...\" vs \"{b[:100]}...\""`. -/
def nliFmt (p : String × String) : String :=
  "NLI: \"" ++ p.1.take 100 ++ "...\" vs \"" ++ p.2.take 100 ++ "...\""

/-- `_detect_contradictions_nli(claims, max_pairs)`.  The NLI backend is
modelled as an optional per-pair score function (`none` = unavailable); a
3-component score flags a contradiction when the first component strictly
exceeds the other two and 0.5; a shorter non-empty score falls back to the
absolute-threshold test of the source's `elif`. -/
def _detect_contradictions_nli (model : Option (String × String → List ℚ))
    (claims : List String) (max_pairs : Nat) : List String :=
  match model with
  | none => []
  | some scorer =>
    if claims.length < 2 then []
    else
      let pairs := nliPairs claims max_pairs
      if pairs.isEmpty then []
      else
        pairs.filterMap fun p =>
          let s := scorer p
          if s.length ≥ 3 then
            if s.getD 0 0 > s.getD 1 0 ∧ s.getD 0 0 > s.getD 2 0 ∧ s.getD 0 0 > mkRat 1 2 then
              some (nliFmt p)
            else none
          else if s.length ≥ 1 then
            if s.getD 0 0 > mkRat 1 2 then some (nliFmt p) else none
          else none

/-- `EXTRACTION_TIMEOUT_SEC = max(30, int(os.getenv("EXTRACTION_TIMEOUT_SEC",
"180")))`, as a function of the configured integer value. -/
def EXTRACTION_TIMEOUT_SEC (configured : Int) : Int := max 30 configured

/-- The timeout `_call_llm` passes to the backend client: both the Ollama
and OpenAI branches use `timeout=float(EXTRACTION_TIMEOUT_SEC)`. -/
def callLlmTimeout (configured : Int) : Int := EXTRACTION_TIMEOUT_SEC configured

/-- Pydantic validation of the `version` field from the parsed LLM dict:
absent → default 2, integral number → its value; other shapes are modelled
as validation errors (a stricter domain than pydantic's lax coercions,
which additionally accept digit strings — not exercised here). -/
def validateVersion : Option Json → Option Int
  | none => some 2
  | some (.num q) => if q.den = 1 then some q.num else none
  | some _ => none

/-- Pydantic validation of the `updated_at` string field: absent → default
`""`, string → itself. -/
def validateUpdatedAt : Option Json → Option String
  | none => some ""
  | some (.str s) => some s
  | some _ => none

/-- Pydantic validation of the `confidence` float field: absent → default
1.0, number → itself. -/
def validateConf : Option Json → Option ℚ
  | none => some 1
  | some (.num q) => some q
  | some _ => none

/-- Pydantic validation of the `hash : Optional[str]` field. -/
def validateHash : Option Json → Option (Option String)
  | none => some none
  | some .null => some none
  | some (.str s) => some (some s)
  | some _ => none

/-- `extract_facts_and_drift(context, previous_facts)`.  External effects
are parameters: `digest` stands for SHA-256, `now` for
`datetime.utcnow().isoformat() + "Z"`, `gliner_entities` for the result of
`_extract_entities_gliner` (empty when the NER backend is off),
`nli_model` for the NLI backend handle, and `llm_output` for
`json.loads` of the fence-stripped `_call_llm` response (a JSON object;
an unparsable response is a hard failure before this point).
`max_context_chars` is `EXTRACTION_CONTEXT_MAX_CHARS`.  Steps as in the
source: truncate the context (feeds the prompt and the entity adapter),
canonicalize the six list fields, validate and construct `Facts`,
merge NER entities with exact-string dedup, append NLI contradictions,
stamp `updated_at`, compute `hash` over the model dump, then classify
drift against `previous_facts` with the ORIGINAL (untruncated) context. -/
def extract_facts_and_drift (digest : String → String) (now : String)
    (max_context_chars : Int)
    (gliner_entities : List String)
    (nli_model : Option (String × String → List ℚ))
    (llm_output : List (String × Json))
    (context : List Json)
    (previous_facts : Option (List (String × Json))) :
    Option (Facts × Drift) := do
  let _context_limited := _truncate_context_for_prompt context max_context_chars
  let entities := _to_string_list (pyGet llm_output "entities")
  let claims := _to_string_list (pyGet llm_output "claims")
  let risks := _to_string_list (pyGet llm_output "risks")
  let assumptions := _to_string_list (pyGet llm_output "assumptions")
  let contradictions := _to_string_list (pyGet llm_output "contradictions")
  let goals := _to_string_list (pyGet llm_output "goals")
  let version ← validateVersion (pyGetOpt llm_output "version")
  let updated_at0 ← validateUpdatedAt (pyGetOpt llm_output "updated_at")
  let confidence ← validateConf (pyGetOpt llm_output "confidence")
  let hash0 ← validateHash (pyGetOpt llm_output "hash")
  let facts : Facts :=
    { version := version, updated_at := updated_at0, entities := entities,
      claims := claims, risks := risks, assumptions := assumptions,
      contradictions := contradictions, goals := goals,
      confidence := confidence, hash := hash0 }
  let entities2 :=
    if !gliner_entities.isEmpty then
      gliner_entities.foldl
        (fun acc e => if e ≠ "" && !acc.contains e then acc ++ [e] else acc)
        facts.entities
    else facts.entities
  let nli_contradictions := _detect_contradictions_nli nli_model facts.claims 20
  let contradictions2 :=
    if !nli_contradictions.isEmpty then facts.contradictions ++ nli_contradictions
    else facts.contradictions
  let f1 : Facts :=
    { facts with entities := entities2, contradictions := contradictions2, updated_at := now }
  let f2 : Facts := { f1 with hash := some (stable_hash digest (Json.obj (factsDump f1))) }
  let drift ← compute_drift f2 previous_facts (some context)
  return (f2, drift)

/-- The old-snapshot confidence value `compute_drift` effectively compares
against: the stored number when present and truthy (non-zero), `1.0` when
the field is absent, `None`, `0.0` or otherwise falsy (this is what
`old.get("confidence") or 1.0` evaluates to). -/
def effectiveOldConfidence (d : List (String × Json)) : ℚ :=
  match pyOr (pyGet d "confidence") (Json.num 1) with
  | .num q => q
  | .bool b => if b then 1 else 0
  | _ => 1

/-- Swap the first two entries of a list (a concrete permutation used to
exercise insertion-order independence). -/
def swapFirstTwo {α : Type} : List α → List α
  | a :: b :: l => b :: a :: l
  | l => l

/-- Witness fixture: a record with changed claims and a contradiction. -/
def wFactsContra : Facts := { claims := ["c2"], contradictions := ["x vs y"], hash := some "h" }

/-- Witness fixture: the drift computed for `wFactsContra` against
`[("claims", ["c1"])]` with no context. -/
def wDriftContra : Drift :=
  { level := "high", types := ["factual", "contradiction"],
    notes := ["automatic structured drift detection"], facts_hash := "h",
    references := [[("type", Json.str "contradiction"), ("excerpt", Json.str "x vs y")]] }

/-- Witness fixture: a record with confidence 0.5. -/
def wFactsConf : Facts := { confidence := mkRat 1 2, hash := some "h" }

/-- Witness fixture: an old snapshot storing confidence 0.9. -/
def wOldConf : List (String × Json) := [("confidence", Json.num (mkRat 9 10))]

/-- Witness fixture: the entropy-only drift of `wFactsConf` vs `wOldConf`. -/
def wDriftEntropy : Drift :=
  { level := "low", types := ["entropy"],
    notes := ["automatic structured drift detection"], facts_hash := "h", references := [] }

/-- Witness fixture: a record carrying a contradiction, for the bootstrap case. -/
def wFactsBoot : Facts := { contradictions := ["x vs y"], hash := some "h" }

/-- Witness fixture: a one-event context with a top-level title. -/
def wCtxBoot : List Json := [Json.obj [("title", Json.str "Doc1")]]

/-- Witness fixture: the bootstrap drift of `wFactsBoot` over `wCtxBoot`. -/
def wDriftBoot : Drift :=
  { level := "none", types := [], notes := ["initial snapshot"], facts_hash := "h",
    references := [[("type", Json.str "context_doc"), ("doc", Json.str "Doc1")]] }

/-- Witness fixture: the Facts record produced by the orchestrator on empty
inputs with digest `fun _ => "D"` and timestamp `"T"`. -/
def wExtractFacts : Facts :=
  { version := 2, updated_at := "T", entities := [], claims := [], risks := [],
    assumptions := [], contradictions := [], goals := [], confidence := 1,
    hash := some "D" }

/-- Witness fixture: the matching bootstrap drift. -/
def wExtractDrift : Drift :=
  { level := "none", types := [], notes := ["initial snapshot"], facts_hash := "D",
    references := [] }

/-- The contradiction-flag condition of the NLI adapter's 3-way branch:
the contradiction component strictly exceeds the entailment and neutral
components and the absolute threshold 0.5. -/
def nliContradictionFlag (s : List ℚ) : Bool :=
  decide (s.getD 0 0 > s.getD 1 0 ∧ s.getD 0 0 > s.getD 2 0 ∧ s.getD 0 0 > mkRat 1 2)

/-- Witness fixture: a constant 3-way scorer flagging every pair. -/
def wNliScorer : String × String → List ℚ := fun _ => [mkRat 3 4, 0, 0]

/-! ## Shared lemmas -/

theorem sortJsonFields_eq_map (l : List (String × Json)) :
    sortJsonFields l = l.map (fun kv => (kv.1, sortJson kv.2)) := by
  induction l with
  | nil => rfl
  | cons kv rest ih => simp [sortJsonFields, ih]

theorem sorted_keyLt_of_nodup {l : List (String × Json)} (hs : List.Sorted keyLe l)
    (hn : (l.map Prod.fst).Nodup) : List.Sorted keyLt l := by
  have hne : List.Pairwise (fun a b : String × Json => a.1 ≠ b.1) l := List.pairwise_map.mp hn
  have hs' : List.Pairwise keyLe l := hs
  refine (hs'.and hne).imp (fun h => lt_of_le_of_ne h.1 ?_)
  intro hdata
  exact h.2 (congrArg String.mk hdata)

theorem sortPairs_eq_of_perm {l₁ l₂ : List (String × Json)} (hp : l₁.Perm l₂)
    (hn : (l₁.map Prod.fst).Nodup) : sortPairs l₁ = sortPairs l₂ := by
  have hperm : (sortPairs l₁).Perm (sortPairs l₂) :=
    (List.perm_insertionSort keyLe l₁).trans (hp.trans (List.perm_insertionSort keyLe l₂).symm)
  have hn₁ : ((sortPairs l₁).map Prod.fst).Nodup :=
    (((List.perm_insertionSort keyLe l₁).map Prod.fst).nodup_iff).mpr hn
  have hn₂ : ((sortPairs l₂).map Prod.fst).Nodup :=
    (((List.perm_insertionSort keyLe l₂).map Prod.fst).nodup_iff).mpr
      ((hp.map Prod.fst).nodup_iff.mp hn)
  exact List.eq_of_perm_of_sorted hperm
    (sorted_keyLt_of_nodup (List.sorted_insertionSort keyLe l₁) hn₁)
    (sorted_keyLt_of_nodup (List.sorted_insertionSort keyLe l₂) hn₂)

theorem factsDump_keys (f : Facts) :
    (factsDump f).map Prod.fst
      = ["version", "updated_at", "entities", "claims", "risks", "assumptions",
         "contradictions", "goals", "confidence", "hash"] := rfl

theorem factsDump_keys_nodup (f : Facts) : ((factsDump f).map Prod.fst).Nodup := by
  rw [factsDump_keys]; decide

/-! ## C10 -/

/-- C10: the effective per-call LLM timeout is `max(30, configured)`, hence
never below 30 seconds whatever `EXTRACTION_TIMEOUT_SEC` is configured to. -/
theorem extraction_timeout_floor (configured : Int) :
    callLlmTimeout configured = max 30 configured ∧ 30 ≤ callLlmTimeout configured :=
  ⟨rfl, le_max_left 30 configured⟩

/-! ## C9 -/

/-- C9: `compute_drift` treats an empty previous-facts mapping exactly like
an absent snapshot: both take the bootstrap branch, producing level
`"none"`, empty types and the `"initial snapshot"` note. -/
theorem empty_previous_facts_bootstrap (new : Facts) (ctx : Option (List Json)) :
    compute_drift new (some []) ctx = compute_drift new none ctx ∧
    compute_drift new (some []) none
      = some { level := "none", types := [], notes := ["initial snapshot"],
               facts_hash := new.hash.getD "", references := [] } :=
  ⟨rfl, rfl⟩

/-! ## C2 -/

/-- C2 (counterexample): the claim says the hash is a digest over the
canonical serialization of the record with all fields EXCEPT `hash`; in
fact `stable_hash(facts.model_dump())` serializes the full dump, `hash` key
included (`"hash": null` in the normal flow), so with the identity digest
the assembler's hash input differs from the spec's serialization already on
the all-defaults record. -/
theorem stable_hash_includes_hash_key_cex :
    stable_hash id (Json.obj (factsDump ({} : Facts))) ≠ specHashInput ({} : Facts) ∧
    stable_hash id (Json.obj (factsDump ({} : Facts))) = assemblerHashInput ({} : Facts) :=
  ⟨by decide, rfl⟩

/-- C2 (amended): the Assembler computes the hash as a digest over the
canonical sorted-key serialization of the record INCLUDING the `hash` field
itself (whose pre-digest value is `None` in the assembler flow); hence any
permutation of the dump's fields — i.e. any field population order — yields
the same digest input, and two records equal in all fields receive the same
hash. -/
theorem stable_hash_sorted_keys_order_independent
    (digest : String → String) (f : Facts) (p : List (String × Json))
    (hp : p.Perm (factsDump f)) :
    stable_hash digest (Json.obj p) = stable_hash digest (Json.obj (factsDump f)) ∧
    stable_hash digest (Json.obj (factsDump f)) = digest (assemblerHashInput f) := by
  refine ⟨?_, rfl⟩
  unfold stable_hash
  show digest (dumps false (Json.obj (sortPairs (sortJsonFields p))))
      = digest (dumps false (Json.obj (sortPairs (sortJsonFields (factsDump f)))))
  have hperm : (sortJsonFields p).Perm (sortJsonFields (factsDump f)) := by
    rw [sortJsonFields_eq_map, sortJsonFields_eq_map]
    exact hp.map _
  have hkeys : ((sortJsonFields p).map Prod.fst).Nodup := by
    rw [sortJsonFields_eq_map]
    have hmm : (p.map (fun kv => (kv.1, sortJson kv.2))).map Prod.fst = p.map Prod.fst := by
      rw [List.map_map]; rfl
    rw [hmm]
    exact ((hp.map Prod.fst).nodup_iff).mpr (factsDump_keys_nodup f)
  rw [sortPairs_eq_of_perm hperm hkeys]

/-- C2 (witness): the amended theorem applied to the all-defaults record
with its first two dump fields swapped. -/
theorem stable_hash_sorted_keys_order_independent_witness :
    stable_hash id (Json.obj (swapFirstTwo (factsDump ({} : Facts))))
      = stable_hash id (Json.obj (factsDump ({} : Facts))) ∧
    stable_hash id (Json.obj (factsDump ({} : Facts))) = id (assemblerHashInput ({} : Facts)) :=
  stable_hash_sorted_keys_order_independent id {} (swapFirstTwo (factsDump {}))
    (List.Perm.swap _ _ _)

/-! ## C1 -/

/-- C1: at a concrete two-event context whose full serialization and whose
most-recent event alone both exceed the positive budget, the truncator
returns the singleton of the OLDEST event (`context[:1]`), not the most
recent one — contradicting the claim, the spec and the function's own
"keep last events (newest first)" docstring. -/
theorem truncator_returns_oldest_on_overflow :
    (0 : Int) < 10 ∧
    ((dumps true (Json.arr [Json.obj [("a", Json.str "x")],
        Json.obj [("b", Json.str "yyyyyyyyyyyyyyyyyyyy")]])).length : Int) > 10 ∧
    ((dumps true (Json.arr [Json.obj [("b", Json.str "yyyyyyyyyyyyyyyyyyyy")]])).length : Int) > 10 ∧
    _truncate_context_for_prompt
        [Json.obj [("a", Json.str "x")], Json.obj [("b", Json.str "yyyyyyyyyyyyyyyyyyyy")]] 10
      = [Json.obj [("a", Json.str "x")]] ∧
    _truncate_context_for_prompt
        [Json.obj [("a", Json.str "x")], Json.obj [("b", Json.str "yyyyyyyyyyyyyyyyyyyy")]] 10
      ≠ [Json.obj [("b", Json.str "yyyyyyyyyyyyyyyyyyyy")]] := by
  refine ⟨by decide, by decide, by decide, rfl, ?_⟩
  intro h
  have hs := congrArg (fun l => dumps true (Json.arr l)) h
  exact absurd hs (by decide)

/-! ## Drift characterization helpers -/

theorem pyGet_eq_null_of_pyGetOpt_none {d : List (String × Json)} {k : String}
    (h : pyGetOpt d k = none) : pyGet d k = Json.null := by
  unfold pyGet pyGetOpt at *
  cases hf : d.find? (fun p => p.1 == k) <;> simp [hf] at h ⊢

theorem pyGet_eq_of_pyGetOpt_some {d : List (String × Json)} {k : String} {v : Json}
    (h : pyGetOpt d k = some v) : pyGet d k = v := by
  unfold pyGet pyGetOpt at *
  cases hf : d.find? (fun p => p.1 == k) <;> simp [hf] at h ⊢
  exact h

theorem driftBootstrap_some {new : Facts} {ctx : Option (List Json)} {dr : Drift}
    (h : driftBootstrap new ctx = some dr) :
    ∃ refs, ctxRefs ctx = some refs ∧
      dr = { level := "none", types := [], notes := ["initial snapshot"],
             facts_hash := new.hash.getD "", references := refs } := by
  unfold driftBootstrap at h
  cases hr : ctxRefs ctx with
  | none => rw [hr] at h; exact absurd h (by simp)
  | some refs =>
      rw [hr] at h
      exact ⟨refs, rfl, by injection h with h'; exact h'.symm⟩

theorem driftCompare_some {new : Facts} {d : List (String × Json)}
    {ctx : Option (List Json)} {dr : Drift} (h : driftCompare new d ctx = some dr) :
    ∃ refs0 oce oge ent,
      ctxRefs ctx = some refs0 ∧
      pySetElems (pyOr (pyGet d "claims") (.arr [])) = some oce ∧
      pySetElems (pyOr (pyGet d "goals") (.arr [])) = some oge ∧
      confLess new.confidence d = some ent ∧
      dr = mkCompareDrift new refs0 (!strSetEq new.claims oce) (!strSetEq new.goals oge) ent := by
  unfold driftCompare at h
  cases h1 : ctxRefs ctx with
  | none => rw [h1] at h; exact absurd h (by simp)
  | some refs0 =>
  cases h2 : pySetElems (pyOr (pyGet d "claims") (.arr [])) with
  | none => rw [h1, h2] at h; exact absurd h (by simp)
  | some oce =>
  cases h3 : pySetElems (pyOr (pyGet d "goals") (.arr [])) with
  | none => rw [h1, h2, h3] at h; exact absurd h (by simp)
  | some oge =>
  cases h4 : confLess new.confidence d with
  | none => rw [h1, h2, h3, h4] at h; exact absurd h (by simp)
  | some ent =>
      rw [h1, h2, h3, h4] at h
      exact ⟨refs0, oce, oge, ent, rfl, rfl, rfl, rfl, by injection h with h'; exact h'.symm⟩

theorem compute_drift_some_compare {new : Facts} {d : List (String × Json)}
    {ctx : Option (List Json)} {dr : Drift} (hd : d ≠ [])
    (h : compute_drift new (some d) ctx = some dr) : driftCompare new d ctx = some dr := by
  rw [show compute_drift new (some d) ctx
      = if d.isEmpty then driftBootstrap new ctx else driftCompare new d ctx from rfl] at h
  rwa [if_neg (by simp [hd])] at h

theorem confLess_some {c : ℚ} {d : List (String × Json)} {b : Bool}
    (h : confLess c d = some b) : b = decide (c < effectiveOldConfidence d) := by
  unfold confLess at h
  unfold effectiveOldConfidence
  cases hv : pyOr (pyGet d "confidence") (Json.num 1) <;> rw [hv] at h <;>
    simp at h <;> simp [h]

theorem mem_driftTypesList_entropy (a b c e : Bool) :
    "entropy" ∈ driftTypesList a b c e ↔ e = true := by
  cases a <;> cases b <;> cases c <;> cases e <;> decide

theorem mem_driftTypesList_contradiction (a b c e : Bool) :
    "contradiction" ∈ driftTypesList a b c e ↔ c = true := by
  cases a <;> cases b <;> cases c <;> cases e <;> decide

theorem driftTypesList_nil_iff (a b c e : Bool) :
    driftTypesList a b c e = [] ↔ (a = false ∧ b = false ∧ c = false ∧ e = false) := by
  cases a <;> cases b <;> cases c <;> cases e <;> decide

theorem compute_drift_facts_hash {new : Facts} {old : Option (List (String × Json))}
    {ctx : Option (List Json)} {dr : Drift} (h : compute_drift new old ctx = some dr) :
    dr.facts_hash = new.hash.getD "" := by
  match old with
  | none =>
      rw [show compute_drift new none ctx = driftBootstrap new ctx from rfl] at h
      obtain ⟨refs, -, hdr⟩ := driftBootstrap_some h
      rw [hdr]
  | some d =>
      rw [show compute_drift new (some d) ctx
          = if d.isEmpty then driftBootstrap new ctx else driftCompare new d ctx from rfl] at h
      by_cases hd : d.isEmpty
      · rw [if_pos hd] at h
        obtain ⟨refs, -, hdr⟩ := driftBootstrap_some h
        rw [hdr]
      · rw [if_neg hd] at h
        obtain ⟨refs0, oce, oge, ent, -, -, -, -, hdr⟩ := driftCompare_some h
        rw [hdr]; rfl

theorem ctxRefs_cons_eq (e : Json) (l' : List Json) :
    ctxRefs (some (e :: l'))
      = (_doc_titles_from_context (e :: l')).map (·.map mkCtxDocRef) := by
  rw [show ctxRefs (some (e :: l'))
      = if (e :: l').isEmpty then some []
        else (_doc_titles_from_context (e :: l')).map (·.map mkCtxDocRef) from rfl]
  rw [if_neg (by simp)]

/-! ## C4 -/

/-- C4: with a previous snapshot present (and readable), the drift level is
`"none"` iff no predicate fired, `"low"` iff some predicate fired but not
contradiction, and `"high"` iff the contradiction predicate fired (new
`contradictions` non-empty), overriding `"low"` however many other
predicates fired. -/
theorem drift_level_two_tier (new : Facts) (d : List (String × Json))
    (ctx : Option (List Json)) (dr : Drift) (hd : d ≠ [])
    (h : compute_drift new (some d) ctx = some dr) :
    (dr.level = "high" ↔ new.contradictions ≠ []) ∧
    (dr.level = "high" ↔ "contradiction" ∈ dr.types) ∧
    (dr.level = "none" ↔ dr.types = []) ∧
    (dr.level = "low" ↔ (dr.types ≠ [] ∧ "contradiction" ∉ dr.types)) := by
  obtain ⟨refs0, oce, oge, ent, -, -, -, -, hdr⟩ :=
    driftCompare_some (compute_drift_some_compare hd h)
  subst hdr
  generalize (!strSetEq new.claims oce) = a
  generalize (!strSetEq new.goals oge) = b
  rcases hcon : new.contradictions with _ | ⟨c0, cs⟩ <;>
    simp only [mkCompareDrift, hcon] <;>
    cases a <;> cases b <;> cases ent <;>
    simp [driftTypesList, driftLevel]

/-- C4 (witness): a record with a contradiction and a changed claims set
against a concrete old snapshot classifies as `"high"`. -/
theorem drift_level_two_tier_witness :
    (wDriftContra.level = "high" ↔ wFactsContra.contradictions ≠ []) ∧
    (wDriftContra.level = "high" ↔ "contradiction" ∈ wDriftContra.types) ∧
    (wDriftContra.level = "none" ↔ wDriftContra.types = []) ∧
    (wDriftContra.level = "low"
      ↔ (wDriftContra.types ≠ [] ∧ "contradiction" ∉ wDriftContra.types)) :=
  drift_level_two_tier wFactsContra [("claims", Json.arr [Json.str "c1"])] none wDriftContra
    (List.cons_ne_nil _ _) rfl

/-! ## C3 -/

/-- C3 (counterexample): the old snapshot stores `confidence = 0.0` — the
field is present — and the new confidence 0.5 is NOT strictly less than it,
yet the code fires `entropy` because `old.get("confidence") or 1.0`
replaces the falsy stored 0.0 by 1.0. -/
theorem entropy_zero_old_confidence_cex :
    pyGetOpt [("confidence", Json.num 0)] "confidence" = some (Json.num 0) ∧
    ¬((mkRat 1 2 : ℚ) < 0) ∧
    (compute_drift { confidence := mkRat 1 2, hash := some "h" }
        (some [("confidence", Json.num 0)]) none).map Drift.types = some ["entropy"] :=
  ⟨rfl, by decide, rfl⟩

/-- C3 (amended): with a previous snapshot present (and readable), `entropy`
fires iff the new confidence is strictly below the EFFECTIVE old confidence,
which is the stored number when present and truthy, and defaults to 1.0
when the field is absent, `None`, or falsy (in particular 0.0). -/
theorem entropy_iff_below_effective_old_confidence (new : Facts)
    (d : List (String × Json)) (ctx : Option (List Json)) (dr : Drift) (hd : d ≠ [])
    (h : compute_drift new (some d) ctx = some dr) :
    ("entropy" ∈ dr.types ↔ new.confidence < effectiveOldConfidence d) ∧
    (pyGetOpt d "confidence" = none → effectiveOldConfidence d = 1) ∧
    (∀ q : ℚ, pyGetOpt d "confidence" = some (Json.num q) → q ≠ 0 →
      effectiveOldConfidence d = q) ∧
    (pyGetOpt d "confidence" = some (Json.num 0) → effectiveOldConfidence d = 1) ∧
    (pyGetOpt d "confidence" = some Json.null → effectiveOldConfidence d = 1) := by
  obtain ⟨refs0, oce, oge, ent, -, -, -, h4, hdr⟩ :=
    driftCompare_some (compute_drift_some_compare hd h)
  subst hdr
  refine ⟨?_, ?_, ?_, ?_, ?_⟩
  · simp only [mkCompareDrift]
    rw [mem_driftTypesList_entropy, confLess_some h4]
    exact decide_eq_true_iff
  · intro hnone
    simp [effectiveOldConfidence, pyOr, pyTruthy, pyGet_eq_null_of_pyGetOpt_none hnone]
  · intro q hq hq0
    simp [effectiveOldConfidence, pyOr, pyTruthy, pyGet_eq_of_pyGetOpt_some hq, hq0]
  · intro hq
    simp [effectiveOldConfidence, pyOr, pyTruthy, pyGet_eq_of_pyGetOpt_some hq]
  · intro hq
    simp [effectiveOldConfidence, pyOr, pyTruthy, pyGet_eq_of_pyGetOpt_some hq]

/-- C3 (witness): old confidence 0.9 stored and truthy, new confidence 0.5:
entropy fires and the effective old confidence is the stored 0.9. -/
theorem entropy_iff_below_effective_old_confidence_witness :
    ("entropy" ∈ wDriftEntropy.types
      ↔ wFactsConf.confidence < effectiveOldConfidence wOldConf) ∧
    (pyGetOpt wOldConf "confidence" = none → effectiveOldConfidence wOldConf = 1) ∧
    (∀ q : ℚ, pyGetOpt wOldConf "confidence" = some (Json.num q) → q ≠ 0 →
      effectiveOldConfidence wOldConf = q) ∧
    (pyGetOpt wOldConf "confidence" = some (Json.num 0) →
      effectiveOldConfidence wOldConf = 1) ∧
    (pyGetOpt wOldConf "confidence" = some Json.null →
      effectiveOldConfidence wOldConf = 1) :=
  entropy_iff_below_effective_old_confidence wFactsConf wOldConf none wDriftEntropy
    (List.cons_ne_nil _ _) rfl

/-! ## C5 -/

/-- C5: with `previous_facts = None` the drift is the bootstrap snapshot:
level `"none"`, empty types, the `"initial snapshot"` note, `facts_hash`
taken from the record, and references consisting only of `context_doc`
entries for the document titles of the current context — no
contradiction-typed references even if the new record lists
contradictions. -/
theorem bootstrap_drift_shape (new : Facts) (ctx : Option (List Json)) (dr : Drift)
    (h : compute_drift new none ctx = some dr) :
    dr.level = "none" ∧ dr.types = [] ∧ dr.notes = ["initial snapshot"] ∧
    dr.facts_hash = new.hash.getD "" ∧
    (∀ r ∈ dr.references, ∃ t, r = mkCtxDocRef t) ∧
    (ctx = none → dr.references = []) ∧
    (ctx = some [] → dr.references = []) ∧
    (∀ l ts, ctx = some l → l ≠ [] → _doc_titles_from_context l = some ts →
      dr.references = ts.map mkCtxDocRef) := by
  rw [show compute_drift new none ctx = driftBootstrap new ctx from rfl] at h
  obtain ⟨refs, hr, hdr⟩ := driftBootstrap_some h
  subst hdr
  have hshape : ∀ l ts, ctx = some l → l ≠ [] → _doc_titles_from_context l = some ts →
      refs = ts.map mkCtxDocRef := by
    intro l ts hctx hl hts
    subst hctx
    match l, hl, hr with
    | [], hl, _ => exact absurd rfl hl
    | e :: l', _, hr =>
        rw [ctxRefs_cons_eq, hts, Option.map_some'] at hr
        injection hr with hr'
        exact hr'.symm
  refine ⟨rfl, rfl, rfl, rfl, ?_, ?_, ?_, hshape⟩
  · intro r hrm
    match ctx, hr with
    | none, hr =>
        have h' : some ([] : List (List (String × Json))) = some refs := hr
        injection h' with h''
        rw [← h''] at hrm
        simp at hrm
    | some [], hr =>
        have h' : some ([] : List (List (String × Json))) = some refs := hr
        injection h' with h''
        rw [← h''] at hrm
        simp at hrm
    | some (e :: l'), hr =>
        rw [ctxRefs_cons_eq] at hr
        obtain ⟨ts, -, rfl⟩ := Option.map_eq_some'.mp hr
        obtain ⟨t, -, ht⟩ := List.mem_map.mp hrm
        exact ⟨t, ht.symm⟩
  · intro hctx
    subst hctx
    have h' : some ([] : List (List (String × Json))) = some refs := hr
    injection h' with h''
    exact h''.symm
  · intro hctx
    subst hctx
    have h' : some ([] : List (List (String × Json))) = some refs := hr
    injection h' with h''
    exact h''.symm

/-- C5 (witness): one event with a top-level title, a record with a
non-empty contradictions list; the bootstrap drift carries only the
`context_doc` reference. -/
theorem bootstrap_drift_shape_witness :
    wDriftBoot.level = "none" ∧ wDriftBoot.types = [] ∧
    wDriftBoot.notes = ["initial snapshot"] ∧
    wDriftBoot.facts_hash = wFactsBoot.hash.getD "" ∧
    (∀ r ∈ wDriftBoot.references, ∃ t, r = mkCtxDocRef t) ∧
    ((some wCtxBoot : Option (List Json)) = none → wDriftBoot.references = []) ∧
    ((some wCtxBoot : Option (List Json)) = some [] → wDriftBoot.references = []) ∧
    (∀ l ts, (some wCtxBoot : Option (List Json)) = some l → l ≠ [] →
      _doc_titles_from_context l = some ts → wDriftBoot.references = ts.map mkCtxDocRef) :=
  bootstrap_drift_shape wFactsBoot (some wCtxBoot) wDriftBoot rfl

/-! ## C6 -/

/-- C6: for every extraction call that returns, the Drift's `facts_hash`
equals the `hash` field of the Facts record the drift was computed against
(which is always populated by the assembler before `compute_drift` runs). -/
theorem extract_drift_hash_link (digest : String → String) (now : String) (mc : Int)
    (gl : List String) (nli : Option (String × String → List ℚ))
    (llm : List (String × Json)) (context : List Json)
    (prev : Option (List (String × Json))) (f : Facts) (dr : Drift)
    (h : extract_facts_and_drift digest now mc gl nli llm context prev = some (f, dr)) :
    ∃ hsh, f.hash = some hsh ∧ dr.facts_hash = hsh := by
  simp only [extract_facts_and_drift, bind, Option.bind_eq_some, pure, Option.some.injEq,
    Prod.mk.injEq] at h
  obtain ⟨v, hv, u, hu, c, hc, hs, hhs, dr0, hdrift, hfeq, hdreq⟩ := h
  subst hfeq
  subst hdreq
  exact ⟨_, rfl, compute_drift_facts_hash hdrift⟩

/-- C6 (witness): the orchestrator run on empty inputs with the constant
digest `"D"`. -/
theorem extract_drift_hash_link_witness :
    ∃ hsh, wExtractFacts.hash = some hsh ∧ wExtractDrift.facts_hash = hsh :=
  extract_drift_hash_link (fun _ => "D") "T" 0 [] none [] [] none
    wExtractFacts wExtractDrift rfl

/-! ## C7 -/

theorem pyStr_comp_str : pyStr ∘ Json.str = id := by
  funext s
  rfl

theorem headIsContainer_map_str (l : List String) :
    headIsContainer (l.map Json.str) = false := by
  cases l <;> rfl

theorem map_pyStr_map_str (l : List String) : (l.map Json.str).map pyStr = l := by
  rw [List.map_map, pyStr_comp_str, List.map_id]

theorem toStrListGo_map_str (l : List String) :
    toStrListGo (l.map Json.str)
      = l.map (fun s => if pyStrip s ≠ "" then pyStrip s else s) := by
  induction l with
  | nil => rfl
  | cons s rest ih => simp only [List.map_cons, toStrListGo, ih, List.singleton_append]

theorem toStrDictGo_mapped (kvs : List (String × List String)) :
    toStrDictGo (kvs.map (fun kv => (kv.1, Json.arr (kv.2.map Json.str))))
      = (kvs.map Prod.snd).flatten := by
  induction kvs with
  | nil => rfl
  | cons kv rest ih =>
      simp only [List.map_cons, toStrDictGo, List.flatten_cons, ih,
        headIsContainer_map_str, Bool.and_false, Bool.false_eq_true, if_false,
        map_pyStr_map_str]

/-- C7 (counterexample): a mapping-of-lists input and a flat-list input
containing the same single logical string `" x "` normalize differently —
the mapping path keeps the string verbatim while the flat-list path strips
it — so the resulting string sets differ. -/
theorem canonicalizer_mapping_vs_flat_cex :
    _to_string_list (Json.obj [("k", Json.arr [Json.str " x "])]) = [" x "] ∧
    _to_string_list (Json.arr [Json.str " x "]) = ["x"] ∧
    " x " ∈ _to_string_list (Json.obj [("k", Json.arr [Json.str " x "])]) ∧
    " x " ∉ _to_string_list (Json.arr [Json.str " x "]) :=
  ⟨rfl, rfl, by decide, by decide⟩

/-- C7 (amended): a mapping-of-lists input and the flat-list input carrying
the same logical strings normalize to the same sequence (hence the same
set) PROVIDED every contained string is already trimmed; in general the
mapping path emits the strings verbatim while the flat-list path trims
each non-blank string. -/
theorem canonicalizer_mapping_vs_flat (kvs : List (String × List String))
    (h : ∀ s ∈ (kvs.map Prod.snd).flatten, pyStrip s = s) :
    _to_string_list (Json.obj (kvs.map (fun kv => (kv.1, Json.arr (kv.2.map Json.str)))))
      = (kvs.map Prod.snd).flatten ∧
    _to_string_list (Json.arr (((kvs.map Prod.snd).flatten).map Json.str))
      = (kvs.map Prod.snd).flatten := by
  constructor
  · rw [show _to_string_list (Json.obj (kvs.map (fun kv => (kv.1, Json.arr (kv.2.map Json.str)))))
        = toStrDictGo (kvs.map (fun kv => (kv.1, Json.arr (kv.2.map Json.str)))) from rfl]
    exact toStrDictGo_mapped kvs
  · rw [show _to_string_list (Json.arr (((kvs.map Prod.snd).flatten).map Json.str))
        = toStrListGo (((kvs.map Prod.snd).flatten).map Json.str) from rfl]
    rw [toStrListGo_map_str]
    have : ∀ s ∈ (kvs.map Prod.snd).flatten,
        (if pyStrip s ≠ "" then pyStrip s else s) = id s := by
      intro s hs
      rw [h s hs]
      simp
    rw [List.map_congr_left this, List.map_id]

/-- C7 (witness): the amended theorem at the mapping `{"k": ["x"]}` versus
the flat list `["x"]`. -/
theorem canonicalizer_mapping_vs_flat_witness :
    _to_string_list (Json.obj ([("k", ["x"])].map (fun kv => (kv.1, Json.arr (kv.2.map Json.str)))))
      = ([("k", ["x"])].map Prod.snd).flatten ∧
    _to_string_list (Json.arr ((([("k", ["x"])].map Prod.snd).flatten).map Json.str))
      = ([("k", ["x"])].map Prod.snd).flatten :=
  canonicalizer_mapping_vs_flat [("k", ["x"])] (by decide)

/-! ## C8 -/

theorem nliInner_length (claims : List String) (m mp i : Nat) :
    ∀ j acc, acc.length ≤ mp → (nliInner claims m mp i j acc).length ≤ mp := by
  intro j acc
  induction j, acc using nliInner.induct claims m mp i with
  | case1 j acc hj =>
      intro hlen
      unfold nliInner
      rw [dif_pos hj]
      exact hlen
  | case2 j acc hj hcap =>
      intro hlen
      unfold nliInner
      rw [dif_neg hj, if_pos hcap]
      exact hlen
  | case3 j acc hj hcap ih =>
      intro hlen
      unfold nliInner
      rw [dif_neg hj, if_neg hcap]
      apply ih
      have hlt : acc.length < mp := by omega
      split <;> simp <;> omega

theorem nliOuter_length (claims : List String) (m mp : Nat) :
    ∀ i acc, acc.length ≤ mp → (nliOuter claims m mp i acc).length ≤ mp := by
  intro i acc
  induction i, acc using nliOuter.induct claims m mp with
  | case1 i acc hi =>
      intro hlen
      unfold nliOuter
      rw [dif_pos hi]
      exact hlen
  | case2 i acc hi hcap =>
      intro hlen
      unfold nliOuter
      rw [dif_neg hi, if_pos hcap]
      exact nliInner_length claims m mp i (i + 1) acc hlen
  | case3 i acc hi hcap ih =>
      intro hlen
      unfold nliOuter
      rw [dif_neg hi, if_neg hcap]
      exact ih (nliInner_length claims m mp i (i + 1) acc hlen)

theorem nliPairs_length (claims : List String) (mp : Nat) :
    (nliPairs claims mp).length ≤ mp :=
  nliOuter_length claims (min claims.length 20) mp 0 [] (by simp)

theorem nliInner_shape (claims : List String) (m mp i : Nat) :
    ∀ j acc p, p ∈ nliInner claims m mp i j acc →
      p ∈ acc ∨ ∃ j', j ≤ j' ∧ j' < m ∧ p = (claims.getD i "", claims.getD j' "") ∧
        pyStrip p.1 ≠ "" ∧ pyStrip p.2 ≠ "" := by
  intro j acc
  induction j, acc using nliInner.induct claims m mp i with
  | case1 j acc hj =>
      intro p hp
      unfold nliInner at hp
      rw [dif_pos hj] at hp
      exact Or.inl hp
  | case2 j acc hj hcap =>
      intro p hp
      unfold nliInner at hp
      rw [dif_neg hj, if_pos hcap] at hp
      exact Or.inl hp
  | case3 j acc hj hcap ih =>
      intro p hp
      unfold nliInner at hp
      rw [dif_neg hj, if_neg hcap] at hp
      rcases ih p hp with hin | ⟨j', hj1, hj2, hpe, hs1, hs2⟩
      · revert hin
        split
        · next hb =>
            intro hin
            rcases List.mem_append.mp hin with hin2 | hin2
            · exact Or.inl hin2
            · simp only [List.mem_singleton] at hin2
              subst hin2
              simp only [Bool.and_eq_true, decide_eq_true_eq] at hb
              exact Or.inr ⟨j, le_refl j, by omega, rfl, hb.1, hb.2⟩
        · intro hin
          exact Or.inl hin
      · exact Or.inr ⟨j', by omega, hj2, hpe, hs1, hs2⟩

theorem nliOuter_shape (claims : List String) (m mp : Nat) :
    ∀ i acc p, p ∈ nliOuter claims m mp i acc →
      p ∈ acc ∨ ∃ i' j', i ≤ i' ∧ i' < j' ∧ j' < m ∧
        p = (claims.getD i' "", claims.getD j' "") ∧
        pyStrip p.1 ≠ "" ∧ pyStrip p.2 ≠ "" := by
  intro i acc
  induction i, acc using nliOuter.induct claims m mp with
  | case1 i acc hi =>
      intro p hp
      unfold nliOuter at hp
      rw [dif_pos hi] at hp
      exact Or.inl hp
  | case2 i acc hi hcap =>
      intro p hp
      unfold nliOuter at hp
      rw [dif_neg hi, if_pos hcap] at hp
      rcases nliInner_shape claims m mp i (i + 1) acc p hp with hin | ⟨j', hj1, hj2, hpe, hs1, hs2⟩
      · exact Or.inl hin
      · exact Or.inr ⟨i, j', le_refl i, by omega, hj2, hpe, hs1, hs2⟩
  | case3 i acc hi hcap ih =>
      intro p hp
      unfold nliOuter at hp
      rw [dif_neg hi, if_neg hcap] at hp
      rcases ih p hp with hin | ⟨i', j', hi1, hi2, hj2, hpe, hs1, hs2⟩
      · rcases nliInner_shape claims m mp i (i + 1) acc p hin with hin2 | ⟨j', hj1, hj2, hpe, hs1, hs2⟩
        · exact Or.inl hin2
        · exact Or.inr ⟨i, j', le_refl i, by omega, hj2, hpe, hs1, hs2⟩
      · exact Or.inr ⟨i', j', by omega, hi2, hj2, hpe, hs1, hs2⟩

theorem nliPairs_shape (claims : List String) (mp : Nat) :
    ∀ p ∈ nliPairs claims mp, ∃ i' j', i' < j' ∧ j' < min claims.length 20 ∧
      p = (claims.getD i' "", claims.getD j' "") ∧
      pyStrip p.1 ≠ "" ∧ pyStrip p.2 ≠ "" := by
  intro p hp
  rcases nliOuter_shape claims (min claims.length 20) mp 0 [] p hp with hin | ⟨i', j', -, hi2, hj2, hpe, hs1, hs2⟩
  · simp at hin
  · exact ⟨i', j', hi2, hj2, hpe, hs1, hs2⟩

theorem nliPairs_lt_two {claims : List String} (h2 : claims.length < 2) (mp : Nat) :
    nliPairs claims mp = [] := by
  rw [List.eq_nil_iff_forall_not_mem]
  intro p hp
  obtain ⟨i', j', hij, hjm, -, -, -⟩ := nliPairs_shape claims mp p hp
  omega

theorem filterMap_ite_eq_filter_map {α β : Type} (l : List α) (p : α → Bool) (f : α → β) :
    l.filterMap (fun a => if p a then some (f a) else none) = (l.filter p).map f := by
  induction l with
  | nil => rfl
  | cons a rest ih =>
      cases hp : p a <;> simp [List.filterMap_cons, List.filter_cons, hp, ih]

theorem nliScoreBranch (s : List ℚ) (r : String) (h3 : 3 ≤ s.length) :
    (if s.length ≥ 3 then
        if s.getD 0 0 > s.getD 1 0 ∧ s.getD 0 0 > s.getD 2 0 ∧ s.getD 0 0 > mkRat 1 2 then
          some r
        else none
      else if s.length ≥ 1 then (if s.getD 0 0 > mkRat 1 2 then some r else none) else none)
    = if nliContradictionFlag s then some r else none := by
  rw [if_pos h3]
  by_cases hc : s.getD 0 0 > s.getD 1 0 ∧ s.getD 0 0 > s.getD 2 0 ∧ s.getD 0 0 > mkRat 1 2
  · rw [if_pos hc, if_pos (show nliContradictionFlag s = true from decide_eq_true hc)]
  · rw [if_neg hc, if_neg (show ¬nliContradictionFlag s = true from by
      simp only [nliContradictionFlag, decide_eq_true_eq]; exact hc)]

/-- C8: with a 3-way-scoring backend, the adapter's output is exactly the
formatted descriptions of the enumerated pairs whose score has the
contradiction component strictly above the entailment and neutral
components and above 0.5; the pairs are drawn only from among the first 20
claims (indices i < j < min(len, 20)), capped at the maximum pair count (20
in the orchestrator), skipping blank-after-trim sides; an unavailable
backend or fewer than 2 claims yields the empty sequence. -/
theorem nli_contradiction_adapter (scorer : String × String → List ℚ)
    (claims : List String) (h3 : ∀ p, 3 ≤ (scorer p).length) :
    _detect_contradictions_nli (some scorer) claims 20
      = ((nliPairs claims 20).filter (fun p => nliContradictionFlag (scorer p))).map nliFmt ∧
    _detect_contradictions_nli none claims 20 = [] ∧
    (claims.length < 2 → _detect_contradictions_nli (some scorer) claims 20 = []) ∧
    (nliPairs claims 20).length ≤ 20 ∧
    (∀ p ∈ nliPairs claims 20, ∃ i j, i < j ∧ j < min claims.length 20 ∧
      p = (claims.getD i "", claims.getD j "") ∧ pyStrip p.1 ≠ "" ∧ pyStrip p.2 ≠ "") := by
  refine ⟨?_, rfl, ?_, nliPairs_length claims 20, nliPairs_shape claims 20⟩
  · simp only [_detect_contradictions_nli]
    by_cases h2 : claims.length < 2
    · rw [if_pos h2, nliPairs_lt_two h2]
      rfl
    · rw [if_neg h2]
      by_cases hemp : (nliPairs claims 20).isEmpty
      · rw [if_pos hemp, List.isEmpty_iff.mp hemp]
        rfl
      · rw [if_neg hemp]
        exact (List.filterMap_congr
            (fun p _ => nliScoreBranch (scorer p) (nliFmt p) (h3 p))).trans
          (filterMap_ite_eq_filter_map _ _ _)
  · intro h2
    simp only [_detect_contradictions_nli]
    rw [if_pos h2]

/-- C8 (witness): two claims and a constant flagging scorer. -/
theorem nli_contradiction_adapter_witness :
    _detect_contradictions_nli (some wNliScorer) ["a", "b"] 20
      = ((nliPairs ["a", "b"] 20).filter (fun p => nliContradictionFlag (wNliScorer p))).map nliFmt ∧
    _detect_contradictions_nli none ["a", "b"] 20 = [] ∧
    ((["a", "b"] : List String).length < 2 →
      _detect_contradictions_nli (some wNliScorer) ["a", "b"] 20 = []) ∧
    (nliPairs ["a", "b"] 20).length ≤ 20 ∧
    (∀ p ∈ nliPairs ["a", "b"] 20, ∃ i j, i < j ∧ j < min (["a", "b"] : List String).length 20 ∧
      p = ((["a", "b"] : List String).getD i "", (["a", "b"] : List String).getD j "") ∧
      pyStrip p.1 ≠ "" ∧ pyStrip p.2 ≠ "") :=
  nli_contradiction_adapter wNliScorer ["a", "b"] (fun _ => Nat.le_refl 3)
